import Mathlib

/-!
Shallow embedding of the maze generator in `src/main.rs` (ProgKea/puzzler).
The drawing and windowing code is external to the core; the embedded parts
are `index`, `Cell`, `Grid`, `Grid::new`, `Grid::get_random_neighbor`,
`Grid::remove_wall` and `Grid::update_current`.  The `fastrand` draws are
modelled by explicitly passed numbers: a draw `fastrand::usize(..n)` with
`n > 0` becomes `r % n` for a supplied `r`, and a draw on an empty range
(which panics in `fastrand`) becomes the `panicked` result of construction.
-/

namespace Puzzler

/-- One maze cell, mirroring `struct Cell`: grid coordinates, a visited flag
and four wall-present flags.  `Default` in the source gives coordinates 0,
`visited = false` and all four walls `true`. -/
structure Cell where
  row : Nat
  col : Nat
  visited : Bool
  top : Bool
  bot : Bool
  left : Bool
  right : Bool
deriving DecidableEq

/-- The `Default` instance for `Cell` in the source. -/
def Cell.default : Cell :=
  { row := 0, col := 0, visited := false, top := true, bot := true,
    left := true, right := true }

instance : Inhabited Cell := ⟨Cell.default⟩

/-- The `Grid` struct: dimensions, flat cell storage, backtracking stack,
the current cell index and the optional next cell index.  The source uses a
`VecDeque` purely as a LIFO via `push_back`/`pop_back`; we keep the top of
the stack at the head of the list. -/
structure Grid where
  rows : Nat
  cols : Nat
  cells : List Cell
  stack : List Nat
  current : Nat
  next : Option Nat
deriving DecidableEq

/-- The free function `index(row, col, rows, cols)`: bounds check on signed
coordinates, then the flat offset `(row * rows + col) as usize`.  Note the
source multiplies `row` by `rows`, not by `cols`. -/
def index (row col rows cols : Int) : Option Nat :=
  if row < 0 ∨ col < 0 ∨ row > rows - 1 ∨ col > cols - 1 then
    none
  else
    some (row * rows + col).toNat

/-- Write through one flat cell slot, as the source's `self.cells[i]` field
assignments do (all call sites keep `i` in range). -/
def modc (cs : List Cell) (i : Nat) (f : Cell → Cell) : List Cell :=
  cs.set i (f (cs.getD i Cell.default))

/-- The four `index` probes of `get_random_neighbor`, in source order:
`row - 1`, `row + 1`, `col - 1`, `col + 1`. -/
def neighborProbes (g : Grid) : List (Option Nat) :=
  [ index ((g.cells.getD g.current Cell.default).row - 1)
      ((g.cells.getD g.current Cell.default).col) (g.rows : Int) (g.cols : Int),
    index ((g.cells.getD g.current Cell.default).row + 1)
      ((g.cells.getD g.current Cell.default).col) (g.rows : Int) (g.cols : Int),
    index ((g.cells.getD g.current Cell.default).row)
      ((g.cells.getD g.current Cell.default).col - 1) (g.rows : Int) (g.cols : Int),
    index ((g.cells.getD g.current Cell.default).row)
      ((g.cells.getD g.current Cell.default).col + 1) (g.rows : Int) (g.cols : Int) ]

/-- Loop body of `get_random_neighbor`: a probe that produced a flat offset
is kept when `self.cells.get(index)` succeeds and that cell is unvisited. -/
def candStep (cs : List Cell) (m : Option Nat) (acc : List Nat) : List Nat :=
  match m with
  | some i =>
    match cs.get? i with
    | some n => if n.visited then acc else i :: acc
    | none => acc
  | none => acc

/-- The `neighbors` vector accumulated by `get_random_neighbor`, in probe
order. -/
def neighborCandidates (g : Grid) : List Nat :=
  (neighborProbes g).foldr (candStep g.cells) []

/-- `get_random_neighbor`, with the `fastrand::usize(..neighbors.len())`
draw supplied as `r` (taken modulo the candidate count). -/
def getRandomNeighbor (g : Grid) (r : Nat) : Option Nat :=
  let neighbors := neighborCandidates g
  if neighbors.isEmpty then none
  else some (neighbors.getD (r % neighbors.length) 0)

/-- `remove_wall`.  The source reads `self.next.unwrap()`; its only caller
invokes it when `next` is `Some`, so the resolved next index is passed as
`ni`.  The column delta is matched first; the row delta is then recomputed
from the (possibly column-updated) cells, exactly as the source re-reads
`self.cells` after the first match. -/
def removeWall (g : Grid) (ni : Nat) : Grid :=
  let x : Int := ((g.cells.getD g.current Cell.default).col : Int) -
    ((g.cells.getD ni Cell.default).col : Int)
  let cells1 :=
    if x = 1 then
      modc (modc g.cells g.current (fun c => { c with left := false })) ni
        (fun c => { c with right := false })
    else if x = -1 then
      modc (modc g.cells g.current (fun c => { c with right := false })) ni
        (fun c => { c with left := false })
    else g.cells
  let y : Int := ((cells1.getD g.current Cell.default).row : Int) -
    ((cells1.getD ni Cell.default).row : Int)
  let cells2 :=
    if y = 1 then
      modc (modc cells1 g.current (fun c => { c with top := false })) ni
        (fun c => { c with bot := false })
    else if y = -1 then
      modc (modc cells1 g.current (fun c => { c with bot := false })) ni
        (fun c => { c with top := false })
    else cells1
  { g with cells := cells2 }

/-- `update_current`, with the neighbor draw supplied as `r`.  The neighbor
query runs first (before the current cell is marked visited, as in the
source), then `current` is marked visited; on a `Some` next the current
index is pushed, the wall pair is removed and `current` advances, otherwise
the stack is popped when non-empty. -/
def updateCurrent (g : Grid) (r : Nat) : Grid :=
  match getRandomNeighbor g r with
  | some ni =>
    let g1 : Grid :=
      { g with next := some ni,
               cells := modc g.cells g.current (fun c => { c with visited := true }) }
    { (removeWall { g1 with stack := g1.current :: g1.stack } ni) with current := ni }
  | none =>
    let g1 : Grid :=
      { g with next := none,
               cells := modc g.cells g.current (fun c => { c with visited := true }) }
    match g1.stack with
    | [] => g1
    | popped :: rest => { g1 with current := popped, stack := rest }

/-- A cell as pushed by the construction loops of `Grid::new`. -/
def mkCell (row col : Nat) : Cell :=
  { Cell.default with row := row, col := col }

/-- The row-major cell vector built by the nested loops of `Grid::new`. -/
def buildCells (rows cols : Nat) : List Cell :=
  (List.range rows).flatMap (fun row => (List.range cols).map (fun col => mkCell row col))

/-- The grid value assembled in `Grid::new` just before its trailing
`grid.update_current()` call; `r0` models the `fastrand::usize(..rows * cols)`
draw for the starting cell. -/
def initGrid (rows cols r0 : Nat) : Grid :=
  { rows := rows, cols := cols, cells := buildCells rows cols,
    stack := [], current := r0 % (rows * cols), next := none }

/-- Result of `Grid::new`: `fastrand::usize(..0)` panics on the empty range
when `rows * cols = 0`, otherwise a grid is returned. -/
inductive NewResult where
  | panicked
  | ok (g : Grid)
deriving DecidableEq

/-- `Grid::new(rows, cols)`: build the cells, draw a starting index, then
apply one `update_current` (with draw `r1`) before returning. -/
def gridNew (rows cols r0 r1 : Nat) : NewResult :=
  if rows * cols = 0 then NewResult.panicked
  else NewResult.ok (updateCurrent (initGrid rows cols r0) r1)

/-- The cells of a construction result (empty list on panic); used to state
concrete facts about constructed grids. -/
def resultCells : NewResult → List Cell
  | NewResult.panicked => []
  | NewResult.ok g => g.cells

/-- Run `k` consecutive `update_current` calls, the call numbered `j`
drawing `rng j` for its neighbor choice. -/
def stepN (g : Grid) (rng : Nat → Nat) : Nat → Grid
  | 0 => g
  | k + 1 => updateCurrent (stepN g rng k) (rng k)

/-- A grid with its cell vector replaced (all other fields unchanged); used
to state which part of the state a wall removal touches. -/
def withCells (g : Grid) (cs : List Cell) : Grid :=
  { g with cells := cs }

/-- The signed column difference `x` computed by `remove_wall` between the
current cell and the resolved next cell. -/
def colDelta (g : Grid) (ni : Nat) : Int :=
  ((g.cells.getD g.current Cell.default).col : Int) -
    ((g.cells.getD ni Cell.default).col : Int)

/-- The signed row difference `y` computed by `remove_wall` between the
current cell and the resolved next cell (coordinates are never mutated, so
reading before or after the column phase gives the same value). -/
def rowDelta (g : Grid) (ni : Nat) : Int :=
  ((g.cells.getD g.current Cell.default).row : Int) -
    ((g.cells.getD ni Cell.default).row : Int)

/-- Index-validity invariant maintained by the algorithm: the current index
and every stacked index address an existing slot of `cells`. -/
def GoodGrid (g : Grid) : Prop :=
  g.current < g.cells.length ∧ ∀ i ∈ g.stack, i < g.cells.length

/-- A fresh 2-by-2 grid whose `current`/`next` pair is the diagonal
(0,0)/(1,1), used to exercise `remove_wall` on a non-4-adjacent pair. -/
def diagGrid : Grid :=
  { rows := 2, cols := 2, cells := buildCells 2 2, stack := [],
    current := 0, next := some 3 }

/-- A fresh 2-by-2 grid whose `current`/`next` pair is the 4-adjacent
(0,1)/(0,0) pair (column delta `+1`). -/
def adjGrid : Grid :=
  { rows := 2, cols := 2, cells := buildCells 2 2, stack := [],
    current := 1, next := some 0 }

/-- The 1-by-1 grid after its single cell has been visited: the Complete
state of the smallest maze. -/
def completeGrid : Grid :=
  { rows := 1, cols := 1,
    cells := [{ row := 0, col := 0, visited := true, top := true, bot := true,
                left := true, right := true }],
    stack := [], current := 0, next := none }

/-! ### Helper lemmas about list updates -/

theorem getD_set_self {α : Type} (l : List α) (i : Nat) (a d : α)
    (h : i < l.length) : (l.set i a).getD i d = a := by
  rw [List.getD_eq_getElem?_getD, List.getElem?_set_self h]
  rfl

theorem getD_set_ne {α : Type} (l : List α) (i j : Nat) (a d : α)
    (h : i ≠ j) : (l.set i a).getD j d = l.getD j d := by
  rw [List.getD_eq_getElem?_getD, List.getElem?_set_ne h,
    ← List.getD_eq_getElem?_getD]

theorem getD_eq_of_lt {α : Type} (l : List α) (i : Nat) (d d' : α)
    (h : i < l.length) : l.getD i d = l.getD i d' := by
  rw [List.getD_eq_getElem?_getD, List.getD_eq_getElem?_getD,
    List.getElem?_eq_getElem h]
  rfl

theorem set_getD_self {α : Type} (l : List α) (i : Nat) (d : α) :
    l.set i (l.getD i d) = l := by
  induction l generalizing i with
  | nil => rfl
  | cons a t ih =>
    cases i with
    | zero => simp
    | succ n =>
      rw [List.getD_cons_succ]
      show a :: t.set n (t.getD n d) = a :: t
      rw [ih]

theorem getD_mem {α : Type} (l : List α) (n : Nat) (d : α)
    (h : n < l.length) : l.getD n d ∈ l := by
  induction l generalizing n with
  | nil => simp at h
  | cons a t ih =>
    cases n with
    | zero => simp
    | succ m =>
      simp only [List.getD_cons_succ]
      exact List.mem_cons_of_mem _ (ih m (by simpa using h))

theorem modc_length (cs : List Cell) (i : Nat) (f : Cell → Cell) :
    (modc cs i f).length = cs.length := List.length_set ..

/-- A cell-slot update whose modifier preserves a projection `p` preserves
`p` of every slot read. -/
theorem getD_modc_proj {β : Type} (p : Cell → β) (f : Cell → Cell)
    (hf : ∀ c, p (f c) = p c) (cs : List Cell) (i j : Nat) (d : Cell) :
    p ((modc cs i f).getD j d) = p (cs.getD j d) := by
  unfold modc
  rcases Nat.lt_or_ge i cs.length with h | h
  · rcases eq_or_ne i j with rfl | hne
    · rw [getD_set_self _ _ _ _ h, hf, getD_eq_of_lt _ _ _ _ h]
    · rw [getD_set_ne _ _ _ _ _ hne]
  · rw [List.set_eq_of_length_le h]

theorem removeWall_stack (g : Grid) (ni : Nat) :
    (removeWall g ni).stack = g.stack := rfl

theorem removeWall_current (g : Grid) (ni : Nat) :
    (removeWall g ni).current = g.current := rfl

theorem removeWall_next (g : Grid) (ni : Nat) :
    (removeWall g ni).next = g.next := rfl

theorem removeWall_rows (g : Grid) (ni : Nat) :
    (removeWall g ni).rows = g.rows := rfl

theorem removeWall_cols (g : Grid) (ni : Nat) :
    (removeWall g ni).cols = g.cols := rfl

theorem removeWall_cells_length (g : Grid) (ni : Nat) :
    (removeWall g ni).cells.length = g.cells.length := by
  unfold removeWall
  dsimp only
  split_ifs <;> simp [modc_length]

/-- `remove_wall` only touches wall flags: the visited flag of every slot is
unchanged. -/
theorem removeWall_visited (g : Grid) (ni j : Nat) (d : Cell) :
    ((removeWall g ni).cells.getD j d).visited = (g.cells.getD j d).visited := by
  unfold removeWall
  dsimp only
  split_ifs <;>
    simp only [getD_modc_proj Cell.visited (fun c => { c with left := false }) (fun _ => rfl),
      getD_modc_proj Cell.visited (fun c => { c with right := false }) (fun _ => rfl),
      getD_modc_proj Cell.visited (fun c => { c with top := false }) (fun _ => rfl),
      getD_modc_proj Cell.visited (fun c => { c with bot := false }) (fun _ => rfl)]

/-! ### Construction lemmas -/

theorem length_buildCells (rows cols : Nat) :
    (buildCells rows cols).length = rows * cols := by
  induction rows with
  | zero => simp [buildCells]
  | succ n ih =>
    unfold buildCells at ih ⊢
    rw [List.range_succ, List.flatMap_append, List.length_append, ih]
    simp [Nat.succ_mul]

theorem mem_buildCells (rows cols : Nat) (cell : Cell)
    (h : cell ∈ buildCells rows cols) :
    cell.visited = false ∧ cell.top = true ∧ cell.bot = true ∧
      cell.left = true ∧ cell.right = true ∧ cell.row < rows ∧ cell.col < cols := by
  unfold buildCells at h
  simp only [List.mem_flatMap, List.mem_map, List.mem_range] at h
  obtain ⟨r, hr, c, hc, rfl⟩ := h
  simp [mkCell, Cell.default, hr, hc]

/-! ### Neighbor-candidate lemmas -/

theorem mem_candStep (cs : List Cell) (m : Option Nat) (acc : List Nat)
    (i : Nat) (h : i ∈ candStep cs m acc) : i ∈ acc ∨ i < cs.length := by
  cases m with
  | none => exact Or.inl h
  | some j =>
    simp only [candStep] at h
    cases hj : cs.get? j with
    | none => simp only [hj] at h; exact Or.inl h
    | some n =>
      simp only [hj] at h
      by_cases hv : n.visited
      · rw [if_pos hv] at h; exact Or.inl h
      · rw [if_neg hv] at h
        rcases List.mem_cons.mp h with rfl | h
        · exact Or.inr (List.get?_eq_some.mp hj).1
        · exact Or.inl h

theorem mem_candFold_lt (cs : List Cell) (ms : List (Option Nat)) (i : Nat)
    (h : i ∈ ms.foldr (candStep cs) []) : i < cs.length := by
  induction ms with
  | nil => simp at h
  | cons m ms ih =>
    rcases mem_candStep cs m _ i h with h | h
    · exact ih h
    · exact h

theorem mem_neighborCandidates_lt (g : Grid) (i : Nat)
    (h : i ∈ neighborCandidates g) : i < g.cells.length :=
  mem_candFold_lt g.cells (neighborProbes g) i h

theorem getRandomNeighbor_some_mem (g : Grid) (r ni : Nat)
    (h : getRandomNeighbor g r = some ni) : ni ∈ neighborCandidates g := by
  unfold getRandomNeighbor at h
  by_cases he : (neighborCandidates g).isEmpty
  · rw [if_pos he] at h; exact absurd h (by simp)
  · rw [if_neg he] at h
    have hne : neighborCandidates g ≠ [] := by
      simpa [List.isEmpty_eq_false] using he
    have hlen : 0 < (neighborCandidates g).length := List.length_pos.mpr hne
    have := getD_mem (neighborCandidates g) (r % (neighborCandidates g).length) 0
      (Nat.mod_lt _ hlen)
    rwa [Option.some_inj.mp h] at this

theorem getRandomNeighbor_some_lt (g : Grid) (r ni : Nat)
    (h : getRandomNeighbor g r = some ni) : ni < g.cells.length :=
  mem_neighborCandidates_lt g ni (getRandomNeighbor_some_mem g r ni h)

/-! ### Step lemmas -/

theorem updateCurrent_cells_length (g : Grid) (r : Nat) :
    (updateCurrent g r).cells.length = g.cells.length := by
  unfold updateCurrent
  cases hn : getRandomNeighbor g r with
  | some ni =>
    dsimp only
    rw [removeWall_cells_length]
    exact modc_length g.cells g.current (fun c => { c with visited := true })
  | none =>
    dsimp only
    cases hs : g.stack with
    | nil => simp [hs, modc_length]
    | cons p rest => simp [hs, modc_length]

theorem goodGrid_updateCurrent (g : Grid) (r : Nat) (hg : GoodGrid g) :
    GoodGrid (updateCurrent g r) := by
  obtain ⟨hcur, hstk⟩ := hg
  unfold GoodGrid updateCurrent
  cases hn : getRandomNeighbor g r with
  | some ni =>
    dsimp only
    rw [removeWall_cells_length, removeWall_stack]
    refine ⟨?_, ?_⟩
    · simpa [modc_length] using getRandomNeighbor_some_lt g r ni hn
    · intro i hi
      rw [modc_length]
      rcases List.mem_cons.mp hi with rfl | hi
      · exact hcur
      · exact hstk i hi
  | none =>
    dsimp only
    cases hs : g.stack with
    | nil =>
      refine ⟨by simpa [modc_length] using hcur, ?_⟩
      intro i hi
      simp at hi
    | cons p rest =>
      refine ⟨?_, ?_⟩
      · have : p ∈ g.stack := by rw [hs]; exact List.mem_cons_self ..
        simpa [modc_length] using hstk p this
      · intro i hi
        simp only [List.mem_cons] at hi
        have : i ∈ g.stack := by
          rw [hs]
          exact List.mem_cons_of_mem _ hi
        simpa [modc_length] using hstk i this

theorem stepN_cells_length (g : Grid) (rng : Nat → Nat) (k : Nat) :
    (stepN g rng k).cells.length = g.cells.length := by
  induction k with
  | zero => rfl
  | succ n ih =>
    show (updateCurrent (stepN g rng n) (rng n)).cells.length = _
    rw [updateCurrent_cells_length, ih]

theorem goodGrid_stepN (g : Grid) (rng : Nat → Nat) (k : Nat)
    (hg : GoodGrid g) : GoodGrid (stepN g rng k) := by
  induction k with
  | zero => exact hg
  | succ n ih => exact goodGrid_updateCurrent _ _ ih

theorem initGrid_cells_length (rows cols r0 : Nat) :
    (initGrid rows cols r0).cells.length = rows * cols :=
  length_buildCells rows cols

theorem goodGrid_initGrid (rows cols r0 : Nat) (hr : 1 ≤ rows) (hc : 1 ≤ cols) :
    GoodGrid (initGrid rows cols r0) := by
  refine ⟨?_, ?_⟩
  · rw [initGrid_cells_length]
    exact Nat.mod_lt _ (Nat.mul_pos hr hc)
  · intro i hi
    simp [initGrid] at hi

/-- A step always marks the cell that was current as visited (in-range
current index). -/
theorem updateCurrent_marks_visited (g : Grid) (r : Nat)
    (h : g.current < g.cells.length) :
    ((updateCurrent g r).cells.getD g.current Cell.default).visited = true := by
  have hmod : ((modc g.cells g.current (fun c => { c with visited := true })).getD
      g.current Cell.default).visited = true := by
    unfold modc
    rw [getD_set_self _ _ _ _ h]
  unfold updateCurrent
  cases hn : getRandomNeighbor g r with
  | some ni =>
    dsimp only
    rw [removeWall_visited]
    exact hmod
  | none =>
    dsimp only
    cases hs : g.stack with
    | nil => simpa [hs] using hmod
    | cons p rest => simpa [hs] using hmod

/-- Marking an already-visited in-place cell is the identity on the cell
vector. -/
theorem modc_visited_id (cs : List Cell) (i : Nat)
    (h : (cs.getD i Cell.default).visited = true) :
    modc cs i (fun c => { c with visited := true }) = cs := by
  unfold modc
  have hcell : (fun (c : Cell) => { c with visited := true })
      (cs.getD i Cell.default) = cs.getD i Cell.default := by
    cases hc : cs.getD i Cell.default with
    | mk row col visited top bot left right =>
      rw [hc] at h
      dsimp at h ⊢
      rw [h]
  rw [hcell, set_getD_self]

/-- One `update_current` call is the identity on a state whose neighbor
query is empty, whose stack is empty, whose `next` is `none` and whose
current cell is already visited. -/
theorem updateCurrent_complete_fix (g : Grid)
    (h1 : neighborCandidates g = []) (h2 : g.stack = []) (h3 : g.next = none)
    (h4 : (g.cells.getD g.current Cell.default).visited = true) (r : Nat) :
    updateCurrent g r = g := by
  have hn : getRandomNeighbor g r = none := by
    unfold getRandomNeighbor
    rw [h1]
    rfl
  obtain ⟨ro, co, cs, st, cur, nx⟩ := g
  dsimp at h2 h3 h4
  subst h2
  subst h3
  unfold updateCurrent
  rw [hn]
  dsimp only
  rw [modc_visited_id cs cur h4]

/-! ### Claim theorems -/

/-- Claim C3: `index(row, col, rows, cols)` returns `None` exactly when
`row < 0`, `col < 0`, `row > rows - 1` or `col > cols - 1`, and on every
in-bounds input it returns `Some` of the flat offset. -/
theorem c3_index_none_iff (row col rows cols : Int) :
    (index row col rows cols = none ↔
      row < 0 ∨ col < 0 ∨ row > rows - 1 ∨ col > cols - 1) ∧
    (¬(row < 0 ∨ col < 0 ∨ row > rows - 1 ∨ col > cols - 1) →
      index row col rows cols = some (row * rows + col).toNat) := by
  constructor
  · unfold index
    split <;> simp_all
  · intro h
    unfold index
    rw [if_neg h]

/-- Witness for C3 at the in-bounds input (1, 2) on a 4-by-4 grid. -/
theorem c3_index_none_iff_witness :
    index 1 2 4 4 = some ((1 * 4 + 2 : Int)).toNat :=
  (c3_index_none_iff 1 2 4 4).2 (by decide)

/-- Claim C4 (failing): the flattening `row * rows + col` is not injective
on in-bounds pairs of a rectangular grid, and does not stay below
`rows * cols`: on a 2-by-3 grid the in-bounds pairs (0,2) and (1,0) collide
at flat offset 2, and on a 3-by-2 grid the in-bounds pair (2,1) maps to 7,
outside the 6-slot cell vector. -/
theorem c4_index_collision :
    index 0 2 2 3 = some 2 ∧ index 1 0 2 3 = some 2 ∧
    index 2 1 3 2 = some 7 := by decide

/-- Claim C5 (failing): on a fresh 2-by-3 grid with current cell (0,1),
`get_random_neighbor` (draw 0) returns flat index 3, whose cell is (1,0):
an unvisited cell that is not 4-adjacent to the current cell, because the
probe for neighbor (1,1) flattens to `1 * rows + 1 = 3` while the cell
vector is laid out row-major with `cols = 3`. -/
theorem c5_returns_nonadjacent_cell :
    getRandomNeighbor (initGrid 2 3 1) 0 = some 3 ∧
    ((initGrid 2 3 1).cells.getD 1 Cell.default).row = 0 ∧
    ((initGrid 2 3 1).cells.getD 1 Cell.default).col = 1 ∧
    ((initGrid 2 3 1).cells.getD 3 Cell.default).row = 1 ∧
    ((initGrid 2 3 1).cells.getD 3 Cell.default).col = 0 ∧
    ((initGrid 2 3 1).cells.getD 3 Cell.default).visited = false := by decide

/-- Claim C7 (failing): constructing a 2-by-3 grid with starting cell (0,1)
and first draw 0 removes walls one-sidedly; in the returned grid the
4-adjacent pair (0,0)/(0,1) is asymmetric: (0,1) has lost its left wall
while (0,0) still has its right wall. -/
theorem c7_symmetry_violation :
    ((resultCells (gridNew 2 3 1 0)).getD 1 Cell.default).left = false ∧
    ((resultCells (gridNew 2 3 1 0)).getD 0 Cell.default).right = true ∧
    ((resultCells (gridNew 2 3 1 0)).getD 0 Cell.default).row = 0 ∧
    ((resultCells (gridNew 2 3 1 0)).getD 0 Cell.default).col = 0 ∧
    ((resultCells (gridNew 2 3 1 0)).getD 1 Cell.default).row = 0 ∧
    ((resultCells (gridNew 2 3 1 0)).getD 1 Cell.default).col = 1 := by decide

/-- Claim C9 (failing): `Grid::new` with zero rows or zero columns reaches
the `fastrand::usize(..0)` draw over an empty range, which panics; no
explicit error or result value is produced. -/
theorem c9_zero_dimension_panics (r0 r1 : Nat) :
    gridNew 0 3 r0 r1 = NewResult.panicked ∧
    gridNew 3 0 r0 r1 = NewResult.panicked :=
  ⟨rfl, rfl⟩

set_option maxRecDepth 10000 in
/-- Claim C2 (failing): on the rectangular 2-by-3 grid (start cell 0,
all-zero draw sequence) the run reaches the Complete state (no candidates,
empty stack) after at most 20 further steps, yet the cell (1,2) at flat
index 5 was never visited and so no spanning tree of the 6-cell grid graph
was carved. -/
theorem c2_rectangular_run_incomplete :
    gridNew 2 3 0 0 = NewResult.ok (updateCurrent (initGrid 2 3 0) 0) ∧
    neighborCandidates (stepN (updateCurrent (initGrid 2 3 0) 0) (fun _ => 0) 20) = [] ∧
    (stepN (updateCurrent (initGrid 2 3 0) 0) (fun _ => 0) 20).stack = [] ∧
    ((stepN (updateCurrent (initGrid 2 3 0) 0) (fun _ => 0) 20).cells.getD 5 Cell.default).visited = false ∧
    ((stepN (updateCurrent (initGrid 2 3 0) 0) (fun _ => 0) 20).cells.getD 5 Cell.default).row = 1 ∧
    ((stepN (updateCurrent (initGrid 2 3 0) 0) (fun _ => 0) 20).cells.getD 5 Cell.default).col = 2 := by
  decide

/-- Claim C1 counterexample: `Grid::new(1, 1)` (both draws 0) returns a
grid whose single cell is already visited, so the grid returned by
construction does not have every cell unvisited: the constructor itself
applies one `update_current` before returning. -/
theorem c1_counterexample :
    gridNew 1 1 0 0 = NewResult.ok completeGrid ∧
    (completeGrid.cells.getD 0 Cell.default).visited = true := by decide

/-- Claim C1 as amended: for `rows, cols ≥ 1`, `Grid::new` assembles a grid
whose cells are all unvisited with all four walls present and a random
in-range starting cell, but then applies one `update_current` before
returning, so the returned grid is that all-walled grid with the first
step's bookkeeping applied — in particular the starting cell is already
visited. -/
theorem c1_construction_characterized (rows cols r0 r1 : Nat)
    (hr : 1 ≤ rows) (hc : 1 ≤ cols) :
    (∀ cell ∈ (initGrid rows cols r0).cells,
      cell.visited = false ∧ cell.top = true ∧ cell.bot = true ∧
        cell.left = true ∧ cell.right = true) ∧
    (initGrid rows cols r0).current < rows * cols ∧
    gridNew rows cols r0 r1 =
      NewResult.ok (updateCurrent (initGrid rows cols r0) r1) ∧
    ((updateCurrent (initGrid rows cols r0) r1).cells.getD
      (initGrid rows cols r0).current Cell.default).visited = true := by
  have hprod : rows * cols ≠ 0 := Nat.pos_iff_ne_zero.mp (Nat.mul_pos hr hc)
  refine ⟨?_, ?_, ?_, ?_⟩
  · intro cell hcell
    have h := mem_buildCells rows cols cell hcell
    exact ⟨h.1, h.2.1, h.2.2.1, h.2.2.2.1, h.2.2.2.2.1⟩
  · exact Nat.mod_lt _ (Nat.mul_pos hr hc)
  · unfold gridNew
    rw [if_neg hprod]
  · apply updateCurrent_marks_visited
    rw [initGrid_cells_length]
    exact Nat.mod_lt _ (Nat.mul_pos hr hc)

/-- Witness for C1 as amended, on a 2-by-2 grid with both draws 0. -/
theorem c1_construction_characterized_witness :
    gridNew 2 2 0 0 = NewResult.ok (updateCurrent (initGrid 2 2 0) 0) :=
  (c1_construction_characterized 2 2 0 0 (by decide) (by decide)).2.2.1

/-- Claim C8 counterexample: the fresh 1-by-1 grid state has no unvisited
in-bounds neighbor of `current` (it has no neighbors at all) and an empty
stack, yet `step` changes the state: it marks the current cell visited. -/
theorem c8_counterexample :
    neighborCandidates (initGrid 1 1 0) = [] ∧
    (initGrid 1 1 0).stack = [] ∧
    (initGrid 1 1 0).next = none ∧
    updateCurrent (initGrid 1 1 0) 0 ≠ initGrid 1 1 0 := by decide

/-- Claim C8 as amended: a state whose neighbor query is empty, whose stack
is empty, whose `next` is `none` and whose current cell is already visited
is a fixed point of `step`: every further sequence of `step` calls leaves
the whole grid state unchanged. -/
theorem c8_complete_state_absorbing (g : Grid)
    (h1 : neighborCandidates g = []) (h2 : g.stack = []) (h3 : g.next = none)
    (h4 : (g.cells.getD g.current Cell.default).visited = true)
    (rng : Nat → Nat) (k : Nat) :
    stepN g rng k = g := by
  induction k with
  | zero => rfl
  | succ n ih =>
    show updateCurrent (stepN g rng n) (rng n) = g
    rw [ih]
    exact updateCurrent_complete_fix g h1 h2 h3 h4 (rng n)

/-- Witness for C8 as amended: the Complete 1-by-1 grid is unchanged by
five further steps. -/
theorem c8_complete_state_absorbing_witness :
    stepN completeGrid (fun _ => 0) 5 = completeGrid :=
  c8_complete_state_absorbing completeGrid (by decide) rfl rfl (by decide)
    (fun _ => 0) 5

/-- Claim C10: for every grid built by `Grid::new` with positive dimensions
and any draw sequence, after every number of steps the current index is
strictly below the length of the cell vector (which stays `rows * cols`),
so each `cells[current]` access of the algorithm is in bounds. -/
theorem c10_current_in_bounds (rows cols r0 r1 : Nat)
    (hr : 1 ≤ rows) (hc : 1 ≤ cols) (g : Grid)
    (hok : gridNew rows cols r0 r1 = NewResult.ok g)
    (rng : Nat → Nat) (k : Nat) :
    (stepN g rng k).current < (stepN g rng k).cells.length ∧
    (stepN g rng k).cells.length = rows * cols := by
  have hprod : rows * cols ≠ 0 := Nat.pos_iff_ne_zero.mp (Nat.mul_pos hr hc)
  unfold gridNew at hok
  rw [if_neg hprod] at hok
  injection hok with hok
  subst hok
  have good1 : GoodGrid (updateCurrent (initGrid rows cols r0) r1) :=
    goodGrid_updateCurrent _ _ (goodGrid_initGrid rows cols r0 hr hc)
  refine ⟨(goodGrid_stepN _ rng k good1).1, ?_⟩
  rw [stepN_cells_length, updateCurrent_cells_length, initGrid_cells_length]

/-- Witness for C10 on a 2-by-2 grid, three steps after construction. -/
theorem c10_current_in_bounds_witness :
    (stepN (updateCurrent (initGrid 2 2 0) 0) (fun _ => 0) 3).current <
      (stepN (updateCurrent (initGrid 2 2 0) 0) (fun _ => 0) 3).cells.length :=
  (c10_current_in_bounds 2 2 0 0 (by decide) (by decide)
    (updateCurrent (initGrid 2 2 0) 0) rfl (fun _ => 0) 3).1

/-- Claim C6 counterexample: on a fresh 2-by-2 grid with `current` at (0,0)
and `next` at (1,1) — a diagonal, non-4-adjacent pair — `remove_wall` does
not leave the wall flags unchanged: it clears both the right/left pair and
the bot/top pair of the two cells. -/
theorem c6_counterexample :
    ((removeWall diagGrid 3).cells.getD 0 Cell.default).right = false ∧
    ((removeWall diagGrid 3).cells.getD 0 Cell.default).bot = false ∧
    ((removeWall diagGrid 3).cells.getD 3 Cell.default).left = false ∧
    ((removeWall diagGrid 3).cells.getD 3 Cell.default).top = false ∧
    (diagGrid.cells.getD 0 Cell.default).row = 0 ∧
    (diagGrid.cells.getD 0 Cell.default).col = 0 ∧
    (diagGrid.cells.getD 3 Cell.default).row = 1 ∧
    (diagGrid.cells.getD 3 Cell.default).col = 1 := by decide

/-- Claim C6 as amended: `remove_wall` treats the two axes independently —
whatever the other axis's delta is, a column delta of +1 clears the
current.left/next.right pair and −1 clears current.right/next.left, and a
row delta of +1 clears current.top/next.bot and −1 clears
current.bot/next.top (applied after the column phase, as in the source).
All nine sign combinations of the two deltas are characterized: 4-adjacent
pairs get exactly the one matching wall pair cleared, pairs with neither
delta equal to ±1 are left unchanged, and diagonal pairs (both deltas ±1)
get both wall pairs cleared. -/
theorem c6_remove_wall_characterized (g : Grid) (ni : Nat) :
    (colDelta g ni = 1 → rowDelta g ni = 1 →
      removeWall g ni = withCells g (modc (modc (modc (modc g.cells g.current
        (fun c => { c with left := false })) ni (fun c => { c with right := false }))
        g.current (fun c => { c with top := false })) ni
        (fun c => { c with bot := false }))) ∧
    (colDelta g ni = 1 → rowDelta g ni = -1 →
      removeWall g ni = withCells g (modc (modc (modc (modc g.cells g.current
        (fun c => { c with left := false })) ni (fun c => { c with right := false }))
        g.current (fun c => { c with bot := false })) ni
        (fun c => { c with top := false }))) ∧
    (colDelta g ni = 1 → rowDelta g ni ≠ 1 → rowDelta g ni ≠ -1 →
      removeWall g ni = withCells g (modc (modc g.cells g.current
        (fun c => { c with left := false })) ni (fun c => { c with right := false }))) ∧
    (colDelta g ni = -1 → rowDelta g ni = 1 →
      removeWall g ni = withCells g (modc (modc (modc (modc g.cells g.current
        (fun c => { c with right := false })) ni (fun c => { c with left := false }))
        g.current (fun c => { c with top := false })) ni
        (fun c => { c with bot := false }))) ∧
    (colDelta g ni = -1 → rowDelta g ni = -1 →
      removeWall g ni = withCells g (modc (modc (modc (modc g.cells g.current
        (fun c => { c with right := false })) ni (fun c => { c with left := false }))
        g.current (fun c => { c with bot := false })) ni
        (fun c => { c with top := false }))) ∧
    (colDelta g ni = -1 → rowDelta g ni ≠ 1 → rowDelta g ni ≠ -1 →
      removeWall g ni = withCells g (modc (modc g.cells g.current
        (fun c => { c with right := false })) ni (fun c => { c with left := false }))) ∧
    (colDelta g ni ≠ 1 → colDelta g ni ≠ -1 → rowDelta g ni = 1 →
      removeWall g ni = withCells g (modc (modc g.cells g.current
        (fun c => { c with top := false })) ni (fun c => { c with bot := false }))) ∧
    (colDelta g ni ≠ 1 → colDelta g ni ≠ -1 → rowDelta g ni = -1 →
      removeWall g ni = withCells g (modc (modc g.cells g.current
        (fun c => { c with bot := false })) ni (fun c => { c with top := false }))) ∧
    (colDelta g ni ≠ 1 → colDelta g ni ≠ -1 → rowDelta g ni ≠ 1 →
      rowDelta g ni ≠ -1 → removeWall g ni = g) := by
  refine ⟨?_, ?_, ?_, ?_, ?_, ?_, ?_, ?_, ?_⟩
  · intro hdc hdr
    unfold colDelta at hdc
    unfold rowDelta at hdr
    unfold removeWall
    dsimp only
    simp only [hdc]
    rw [if_pos True.intro]
    simp only [getD_modc_proj Cell.row (fun c => { c with left := false }) (fun _ => rfl),
      getD_modc_proj Cell.row (fun c => { c with right := false }) (fun _ => rfl)]
    simp only [hdr]
    rw [if_pos True.intro]
    rfl
  · intro hdc hdr
    unfold colDelta at hdc
    unfold rowDelta at hdr
    unfold removeWall
    dsimp only
    simp only [hdc]
    rw [if_pos True.intro]
    simp only [getD_modc_proj Cell.row (fun c => { c with left := false }) (fun _ => rfl),
      getD_modc_proj Cell.row (fun c => { c with right := false }) (fun _ => rfl)]
    simp only [hdr]
    rw [if_neg (show ¬((-1 : Int) = 1) by decide), if_pos True.intro]
    rfl
  · intro hdc hdr1 hdr2
    unfold colDelta at hdc
    unfold rowDelta at hdr1 hdr2
    unfold removeWall
    dsimp only
    simp only [hdc]
    rw [if_pos True.intro]
    simp only [getD_modc_proj Cell.row (fun c => { c with left := false }) (fun _ => rfl),
      getD_modc_proj Cell.row (fun c => { c with right := false }) (fun _ => rfl)]
    rw [if_neg hdr1, if_neg hdr2]
    rfl
  · intro hdc hdr
    unfold colDelta at hdc
    unfold rowDelta at hdr
    unfold removeWall
    dsimp only
    simp only [hdc]
    rw [if_neg (show ¬((-1 : Int) = 1) by decide), if_pos True.intro]
    simp only [getD_modc_proj Cell.row (fun c => { c with right := false }) (fun _ => rfl),
      getD_modc_proj Cell.row (fun c => { c with left := false }) (fun _ => rfl)]
    simp only [hdr]
    rw [if_pos True.intro]
    rfl
  · intro hdc hdr
    unfold colDelta at hdc
    unfold rowDelta at hdr
    unfold removeWall
    dsimp only
    simp only [hdc]
    rw [if_neg (show ¬((-1 : Int) = 1) by decide), if_pos True.intro]
    simp only [getD_modc_proj Cell.row (fun c => { c with right := false }) (fun _ => rfl),
      getD_modc_proj Cell.row (fun c => { c with left := false }) (fun _ => rfl)]
    simp only [hdr]
    rw [if_neg (show ¬((-1 : Int) = 1) by decide), if_pos True.intro]
    rfl
  · intro hdc hdr1 hdr2
    unfold colDelta at hdc
    unfold rowDelta at hdr1 hdr2
    unfold removeWall
    dsimp only
    simp only [hdc]
    rw [if_neg (show ¬((-1 : Int) = 1) by decide), if_pos True.intro]
    simp only [getD_modc_proj Cell.row (fun c => { c with right := false }) (fun _ => rfl),
      getD_modc_proj Cell.row (fun c => { c with left := false }) (fun _ => rfl)]
    rw [if_neg hdr1, if_neg hdr2]
    rfl
  · intro hdc1 hdc2 hdr
    unfold colDelta at hdc1 hdc2
    unfold rowDelta at hdr
    unfold removeWall
    dsimp only
    rw [if_neg hdc1, if_neg hdc2]
    simp only [hdr]
    rw [if_pos True.intro]
    rfl
  · intro hdc1 hdc2 hdr
    unfold colDelta at hdc1 hdc2
    unfold rowDelta at hdr
    unfold removeWall
    dsimp only
    rw [if_neg hdc1, if_neg hdc2]
    simp only [hdr]
    rw [if_neg (show ¬((-1 : Int) = 1) by decide), if_pos True.intro]
    rfl
  · intro hdc1 hdc2 hdr1 hdr2
    unfold colDelta at hdc1 hdc2
    unfold rowDelta at hdr1 hdr2
    unfold removeWall
    dsimp only
    rw [if_neg hdc1, if_neg hdc2, if_neg hdr1, if_neg hdr2]

/-- Witness for C6 as amended: on `adjGrid` the current/next pair is the
4-adjacent (0,1)/(0,0) pair with column delta `+1` and row delta `0`, and
exactly the left/right wall pair is cleared. -/
theorem c6_remove_wall_characterized_witness :
    removeWall adjGrid 0 = withCells adjGrid (modc (modc adjGrid.cells adjGrid.current
      (fun c => { c with left := false })) 0 (fun c => { c with right := false })) :=
  (c6_remove_wall_characterized adjGrid 0).2.2.1 (by decide) (by decide) (by decide)

end Puzzler
